import Mathlib

/-!
# Verification of the `apiforward` LLM-proxy request pipeline

Shallow embedding of the repository `normalman743/apiforward` (Python/FastAPI).
Source files embedded here:

* `app/core/rate_limiter.py`   — `RateLimiter.check_rate_limits`
* `app/core/billing.py`        — `BillingSystem.check_balance` / `deduct_balance`
* `app/core/request_handler.py`— `RequestHandler.handle_request` and helpers
* `app/models/model_manager.py`— `ModelManager` catalogue reads
* `app/providers/openai.py`    — `OpenAIProvider.completion`
* `app/main.py`                — the `POST /v1/chat/completions` endpoint

Modelling conventions:
* Python numbers (prices, balances, costs) are embedded as `ℚ`; the float
  literal `1.2` is the rational `6/5`.
* Python dicts with a fixed shape become structures; a key accessed with
  `.get(k)` that may be missing becomes an `Option` field.
* Redis keys are four disjoint string families (`concurrent:`, `minute:`,
  `day:`, `month:` followed by the credential); they are embedded as an
  inductive key type, faithful because the four textual families never
  collide.
* `raise HTTPException(code, detail)` becomes the error value
  `PyErr.http code detail`; other Python exceptions become `PyErr.exn msg`.
  Mutation of shared state (Redis, Mongo collections) is explicit state
  passing: a step returns its result together with the post-state, and a
  raised exception does not roll the state back (as in the source, where
  Redis/Mongo writes are not transactional with the exception).
-/

namespace ApiForward

/-!
Python float arithmetic on money and parameters is embedded as exact
rational arithmetic. The operations below are the standard rational
operations written through `mkRat` (they are proven equal to `ℚ`'s `+`,
`-`, `*`, `/` in the theorem section); they are used in the embedding so
that concrete runs of the pipeline evaluate inside the kernel.
-/

/-- Rational addition through `mkRat`. -/
def qadd (a b : ℚ) : ℚ := mkRat (a.num * b.den + b.num * a.den) (a.den * b.den)

/-- Rational subtraction through `mkRat`. -/
def qsub (a b : ℚ) : ℚ := mkRat (a.num * b.den - b.num * a.den) (a.den * b.den)

/-- Rational multiplication through `mkRat`. -/
def qmul (a b : ℚ) : ℚ := mkRat (a.num * b.num) (a.den * b.den)

/-- Rational inverse through `Rat.divInt`. -/
def qinv (a : ℚ) : ℚ := Rat.divInt (a.den : ℤ) a.num

/-- Rational division. -/
def qdiv (a b : ℚ) : ℚ := qmul a (qinv b)

/-- Sum of a list of rationals, accumulated left to right as a Python
`+=` loop does. -/
def qsuml (l : List ℚ) : ℚ := l.foldl qadd 0

/-- Python `int()` on a float: truncation toward zero. -/
def qtrunc (q : ℚ) : ℤ := Int.tdiv q.num q.den

/-- A Python parameter value as it occurs in a request dict: `None`, a bool,
an int, a float (embedded as `ℚ`) or a string. -/
inductive PValue
  | vNull
  | vBool (b : Bool)
  | vInt (n : ℤ)
  | vFloat (q : ℚ)
  | vStr (s : String)
deriving DecidableEq, Repr

/-- A single-quote character, used to build Python `str()` renderings. -/
def sq : String := String.singleton (Char.ofNat 39)

/-- One item of a structured message content list. The HTTP schema
(`app/models/schemas.py`, `MessageContentItem`) only admits
`{"type": "text", "text": ...}` and
`{"type": "image_url", "image_url": {"url": ..., "detail"?: ...}}`. -/
inductive ContentItem
  | text (t : String)
  | imageUrl (url : String) (detail : Option String)
deriving DecidableEq, Repr

/-- The `"type"` field of a content item. -/
def ContentItem.itemType : ContentItem → String
  | .text _ => "text"
  | .imageUrl _ _ => "image_url"

/-- Message content: a plain string or a list of typed items
(`Message.content` in `app/models/schemas.py`). -/
inductive Content
  | str (s : String)
  | items (l : List ContentItem)
deriving DecidableEq, Repr

/-- Python `repr` of one content-item dict (keys in pydantic field order,
single-quoted strings). -/
def reprItem : ContentItem → String
  | .text t =>
      "\x7b" ++ sq ++ "type" ++ sq ++ ": " ++ sq ++ "text" ++ sq ++ ", "
        ++ sq ++ "text" ++ sq ++ ": " ++ sq ++ t ++ sq ++ "\x7d"
  | .imageUrl u d =>
      "\x7b" ++ sq ++ "type" ++ sq ++ ": " ++ sq ++ "image_url" ++ sq ++ ", "
        ++ sq ++ "image_url" ++ sq ++ ": \x7b" ++ sq ++ "url" ++ sq ++ ": "
        ++ sq ++ u ++ sq
        ++ (match d with
            | none => ""
            | some dd => ", " ++ sq ++ "detail" ++ sq ++ ": " ++ sq ++ dd ++ sq)
        ++ "\x7d\x7d"

/-- Python `str()` of a message content value (`str(msg.get("content", ""))`
in `_estimate_cost`): a string renders as itself, a list as its repr. -/
def contentStr : Content → String
  | .str s => s
  | .items l => "[" ++ String.intercalate ", " (l.map reprItem) ++ "]"

/-- `str(msg.get("content", ""))` — a missing content key stringifies to `""`. -/
def contentStrOpt : Option Content → String
  | none => ""
  | some c => contentStr c

/-- A chat message as a dict: `role` and `content` keys may be absent
(`"role" not in message` is checked by the validator). -/
structure Message where
  role : Option String
  content : Option Content
deriving DecidableEq, Repr

/-- A request dict: the `model` and `messages` entries plus the remaining
top-level parameters as an association list (dict iteration order).
The source iterates over all of `request.items()`; the `model` and
`messages` entries are kept apart here because no model record in the
catalogue declares parameters with those names. -/
structure Request where
  model : String
  messages : Option (List Message)
  params : List (String × PValue)
deriving DecidableEq, Repr

/-- `pricing` subdocument of a model record. -/
structure Pricing where
  input_price : ℚ
  output_price : ℚ
  image_input_price : Option ℚ
deriving DecidableEq, Repr

/-- One parameter schema entry of a model record:
`{type, min?, max?, values?, default?}`. `default := none` models a schema
dict without a `"default"` key (the `KeyError` branch of the validator);
`some .vNull` models an explicit `"default": None`. -/
structure ParamSchema where
  type : String
  min : Option ℚ
  max : Option ℚ
  values : List PValue
  default : Option PValue
deriving DecidableEq, Repr

/-- `capabilities` subdocument of a model record (the three boolean flags
used by every seeded model in `_init_default_models`). -/
structure Capabilities where
  text : Bool
  image : Bool
  reply_mode : Bool
deriving DecidableEq, Repr

/-- A model record from the `models` collection. -/
structure ModelConfig where
  model_id : String
  provider : String
  capabilities : Capabilities
  pricing : Pricing
  capability_level : ℤ
  max_tokens : Option ℕ
  parameters : List (String × ParamSchema)
  status : String
deriving DecidableEq, Repr

/-- `rate_limits` subdocument of a credential record. -/
structure RateLimits where
  requests_per_minute : ℕ
  requests_per_day : ℕ
  requests_per_month : ℕ
  concurrent_requests : ℕ
deriving DecidableEq, Repr

/-- `retry_config` subdocument of a credential record. -/
structure RetryConfig where
  max_retries : ℕ
  retry_delay : ℕ
  fallback_to_lower_tier : Bool
deriving DecidableEq, Repr

/-- A credential record from the `api_keys` collection. `status` is an
`Option` because `_get_api_config` reads it with `.get("status")`. -/
structure ApiConfig where
  api_key : String
  balance : ℚ
  rate_limits : RateLimits
  retry_config : RetryConfig
  status : Option String
deriving DecidableEq, Repr

/-- A raised Python exception: `HTTPException(code, detail)` or any other
exception with its message. -/
inductive PyErr
  | http (code : ℕ) (detail : String)
  | exn (msg : String)
deriving DecidableEq, Repr

/-- Redis keys used by the rate limiter. The source builds the strings
`concurrent:{key}`, `minute:{key}:{now.minute}`, `day:{key}:{now.date()}`,
`month:{key}:{now.year}-{now.month}`; the four families are disjoint, so
they are embedded as constructors. -/
inductive RKey
  | concurrent (key : String)
  | minute (key : String) (m : ℕ)
  | day (key : String) (d : String)
  | month (key : String) (ym : String)
deriving DecidableEq, Repr

/-- The Redis counter store, as association lists in which the most recent
write for a key comes first: integer values and TTLs per key. -/
structure RStore where
  val : List (RKey × ℕ)
  ttl : List (RKey × ℕ)
deriving DecidableEq, Repr

/-- The wall-clock components the rate limiter reads from `datetime.now()`. -/
structure Timestamp where
  minute : ℕ
  date : String
  yearMonth : String
deriving DecidableEq, Repr

/-- `GET k or 0`: the current value of a counter, 0 when the key is unset. -/
def rget (s : RStore) (k : RKey) : ℕ :=
  ((s.val.find? (fun e => e.1 == k)).map (fun e => e.2)).getD 0

/-- The TTL of a key, `none` when no TTL is set. -/
def rttl (s : RStore) (k : RKey) : Option ℕ :=
  (s.ttl.find? (fun e => e.1 == k)).map (fun e => e.2)

/-- `INCR k`: atomic increment returning the post-increment value. -/
def rincr (s : RStore) (k : RKey) : RStore × ℕ :=
  let n := rget s k + 1
  ({ s with val := (k, n) :: s.val }, n)

/-- `EXPIRE k t`. -/
def rexpire (s : RStore) (k : RKey) (t : ℕ) : RStore :=
  { s with ttl := (k, t) :: s.ttl }

/-- `RateLimiter.check_rate_limits` (`app/core/rate_limiter.py`):
read the concurrency gauge and fail fast at the limit; otherwise increment
the three window counters with TTL refresh (the pipeline executes fully),
then fail if any post-increment value exceeds its quota. The concurrency
gauge is only read, never written. -/
def checkRateLimits (s : RStore) (key : String) (rl : RateLimits)
    (now : Timestamp) : Except PyErr Unit × RStore :=
  if rl.concurrent_requests ≤ rget s (.concurrent key) then
    (.error (.http 429 "Too many concurrent requests"), s)
  else
    let (s1, m) := rincr s (.minute key now.minute)
    let s1 := rexpire s1 (.minute key now.minute) 60
    let (s2, d) := rincr s1 (.day key now.date)
    let s2 := rexpire s2 (.day key now.date) 86400
    let (s3, mo) := rincr s2 (.month key now.yearMonth)
    let s3 := rexpire s3 (.month key now.yearMonth) 2592000
    if rl.requests_per_minute < m then
      (.error (.http 429 "Rate limit exceeded (per minute)"), s3)
    else if rl.requests_per_day < d then
      (.error (.http 429 "Rate limit exceeded (per day)"), s3)
    else if rl.requests_per_month < mo then
      (.error (.http 429 "Rate limit exceeded (per month)"), s3)
    else
      (.ok (), s3)

/-- Token usage reported by an upstream response. -/
structure Usage where
  prompt_tokens : ℕ
  completion_tokens : ℕ
  total_tokens : ℕ
deriving DecidableEq, Repr

/-- A canonical upstream response; only the fields the pipeline reads. The
`usage` key may be absent (`response.get("usage", {})`). -/
structure Response where
  usage : Option Usage
deriving DecidableEq, Repr

/-- One entry of the retry-attempts list
(`_process_request_with_retry` appends
`{"attempt": attempt + 1, "timestamp": ..., "status": ..., "error"?: ...}`). -/
structure Attempt where
  attempt : ℕ
  status : String
  error : Option String
deriving DecidableEq, Repr

/-- A transaction document inserted by `BillingSystem._log_transaction`. -/
structure Txn where
  api_key : String
  amount : ℚ
  old_balance : ℚ
  new_balance : ℚ
  transaction_type : String
deriving DecidableEq, Repr

/-- A request-log document inserted by `_log_request` / `_log_error`
(timestamps and parameter echoes omitted). -/
structure LogEntry where
  api_key : String
  model_id : String
  message_count : ℕ
  status : String
  retry_attempts : List Attempt
  cost : Option ℚ
deriving DecidableEq, Repr

/-- The shared persistent state: the Redis counter store and the Mongo
collections `api_keys`, `models`, `transactions`, `requests`. -/
structure World where
  redis : RStore
  api_keys : List ApiConfig
  models : List ModelConfig
  transactions : List Txn
  requests : List LogEntry

/-- `db.api_keys.find_one({"api_key": k})` — first matching document. -/
def getApiConfig (w : World) (k : String) : Option ApiConfig :=
  w.api_keys.find? (fun c => c.api_key == k)

/-- `ModelManager.get_model_config`:
`db.models.find_one({"model_id": m})` — first matching document. -/
def getModelConfig (w : World) (m : String) : Option ModelConfig :=
  w.models.find? (fun c => c.model_id == m)

/-- A BSON value of the shapes relevant to the `$all` clause of
`find_lower_tier_model`: the operand elements of the clause are capability
names, i.e. strings (`bstr`); a field could in principle hold an array of
such names (`barr`), the shape `$all` is written for; but the
`capabilities` field of every document the repository writes into
`db.models` — the seed catalogue of `_init_default_models` as well as this
embedding's `ModelConfig` — is a subdocument of three booleans (`bdoc`). -/
inductive BsonVal where
  | bstr (s : String)
  | barr (elems : List String)
  | bdoc (text image reply_mode : Bool)
deriving DecidableEq, Repr

/-- The BSON value a model document stores under `capabilities`. -/
def bsonOfCaps (c : Capabilities) : BsonVal :=
  .bdoc c.text c.image c.reply_mode

/-- `[k for k, v in capabilities.items() if v]` — the names of the flags
that are true, in the insertion order of the capabilities dict. -/
def trueCapKeys (c : Capabilities) : List String :=
  (if c.text then ["text"] else []) ++
    (if c.image then ["image"] else []) ++
      (if c.reply_mode then ["reply_mode"] else [])

/-- MongoDB's `$all` operator on one field: with an empty operand list it
matches no document at all; on an array-valued field it requires every
listed element to occur among the array's elements; on a non-array field
a one-element list matches exactly when the field equals that element
(so the keys of a boolean subdocument never match a string element), and
a longer list cannot match a non-array field. -/
def mongoAll (elems : List BsonVal) (v : BsonVal) : Bool :=
  match elems with
  | [] => false
  | es =>
      match v with
      | .barr a =>
          es.all (fun e =>
            match e with
            | .bstr s => a.contains s
            | _ => false)
      | _ =>
          match es with
          | [e] => e == v
          | _ => false

/-- `find_one(query, sort=[("capability_level", -1)])`: the first document,
in collection order, whose `capability_level` is maximal among the
candidates (a stable descending sort followed by taking the head). -/
def pickTop : List ModelConfig → Option ModelConfig
  | [] => none
  | m :: rest =>
      match pickTop rest with
      | none => some m
      | some b => if m.capability_level < b.capability_level then some b else some m

/-- `ModelManager.find_lower_tier_model`: `find_one` over `db.models` with
the query `{"capability_level": {"$lt": current_level}, "capabilities":
{"$all": [k for k, v in capabilities.items() if v]}, "status": "active"}`,
sorted by `capability_level` descending. The `$all` clause is evaluated by
`mongoAll` against the subdocument stored under `capabilities`. -/
def findLowerTierModel (w : World) (level : ℤ) (caps : Capabilities) :
    Option ModelConfig :=
  pickTop (w.models.filter (fun m =>
    decide (m.capability_level < level) &&
      mongoAll ((trueCapKeys caps).map BsonVal.bstr) (bsonOfCaps m.capabilities) &&
      m.status == "active"))

/-- `BillingSystem.check_balance`: `True` iff the stored balance is at least
the estimate; raises (`TypeError`) when the credential document is missing. -/
def checkBalance (w : World) (k : String) (estimated : ℚ) : Except PyErr Bool :=
  match getApiConfig w k with
  | none => .error (.exn "TypeError")
  | some user => .ok (if user.balance < estimated then false else true)

/-- `update_one({"api_key": k}, {"$set": {"balance": b}})`: rewrite the
balance of the first matching document only. -/
def updateBalance : List ApiConfig → String → ℚ → List ApiConfig
  | [], _, _ => []
  | c :: rest, k, b =>
      if c.api_key == k then { c with balance := b } :: rest
      else c :: updateBalance rest k b

/-- `BillingSystem.deduct_balance`: read the balance, write
`balance - cost`, append one transaction document with kind `"deduction"`. -/
def deductBalance (w : World) (k : String) (cost : ℚ) : Except PyErr World :=
  match getApiConfig w k with
  | none => .error (.exn "TypeError")
  | some user =>
      let newBalance := qsub user.balance cost
      let w1 := { w with api_keys := updateBalance w.api_keys k newBalance }
      .ok { w1 with transactions := w1.transactions ++
        [{ api_key := k, amount := cost, old_balance := user.balance,
           new_balance := newBalance, transaction_type := "deduction" }] }

/-- `sum(len(str(msg.get("content", ""))) // 4 for msg in messages)`. -/
def estimatedInputTokens (msgs : List Message) : ℕ :=
  (msgs.map (fun m => (contentStrOpt m.content).length / 4)).sum

/-- The per-item image surcharge inside `_estimate_cost`:
`pricing.get("image_input_price", 0)` for items typed `image`/`image_url`. -/
def itemImageCost (pr : Pricing) (i : ContentItem) : ℚ :=
  if i.itemType == "image" || i.itemType == "image_url" then
    pr.image_input_price.getD 0
  else 0

/-- The image-cost accumulation loop of `_estimate_cost`: list-typed
contents contribute per qualifying item, other contents nothing. -/
def imageCostAcc (pr : Pricing) (msgs : List Message) : ℚ :=
  qsuml (msgs.map (fun m =>
    match m.content with
    | some (.items l) => qsuml (l.map (itemImageCost pr))
    | _ => 0))

/-- `RequestHandler._estimate_cost`: floor-divided length-based token
estimate, output tokens `model_config.get("max_tokens", 2048)`, plus image
surcharge, all scaled by the 20 % safety margin (`* 1.2`).
`request["messages"]` is read directly; the pipeline only reaches this after
validation has ensured the key is present, embedded as `getD []`. -/
def estimateCost (req : Request) (mc : ModelConfig) : ℚ :=
  let msgs := req.messages.getD []
  let inputTokens : ℕ := estimatedInputTokens msgs
  let outputTokens : ℕ := mc.max_tokens.getD 2048
  let inputCost : ℚ := qmul (qdiv (inputTokens : ℚ) 1000000) mc.pricing.input_price
  let outputCost : ℚ := qmul (qdiv (outputTokens : ℚ) 1000000) mc.pricing.output_price
  let imageCost : ℚ := imageCostAcc mc.pricing msgs
  qmul (qadd (qadd inputCost outputCost) imageCost) (mkRat 6 5)

/-- `RequestHandler._calculate_actual_cost`. -/
def calculateActualCost (resp : Response) (mc : ModelConfig) : ℚ :=
  let inputTokens : ℕ := (resp.usage.map Usage.prompt_tokens).getD 0
  let outputTokens : ℕ := (resp.usage.map Usage.completion_tokens).getD 0
  qadd (qmul (qdiv (inputTokens : ℚ) 1000000) mc.pricing.input_price)
    (qmul (qdiv (outputTokens : ℚ) 1000000) mc.pricing.output_price)

/-- Accumulate decimal digits; fails on a non-digit. -/
def digitsToNat (l : List Char) : Option ℕ :=
  l.foldl (fun acc c =>
    match acc with
    | none => none
    | some n => if c.isDigit then some (n * 10 + (c.toNat - 48)) else none)
    (some 0)

/-- Python `float()` applied to a string: accepts an optional sign, an
integer part, and an optional fractional part (the decimal-literal core of
CPython's parser; exponent forms and surrounding whitespace are not used by
this repository's inputs). -/
def parseFloatStr (s : String) : Option ℚ :=
  let l := s.data
  let signed : ℚ × List Char :=
    match l with
    | c :: rest => if c = Char.ofNat 45 then (-1, rest)
                   else if c = Char.ofNat 43 then (1, rest) else (1, l)
    | [] => (1, [])
  let sign := signed.1
  let body := signed.2
  let intPart := body.takeWhile Char.isDigit
  let rest := body.dropWhile Char.isDigit
  match rest with
  | [] =>
      if intPart.isEmpty then none
      else (digitsToNat intPart).map (fun n => qmul sign (n : ℚ))
  | c :: frac =>
      if c = Char.ofNat 46 ∧ frac.all Char.isDigit ∧
          ¬(intPart.isEmpty ∧ frac.isEmpty) then
        match digitsToNat intPart, digitsToNat frac with
        | some i, some f =>
            some (qmul sign
              (qadd (i : ℚ) (qdiv (f : ℚ) ((10 ^ frac.length : ℕ) : ℚ))))
        | _, _ => none
      else none

/-- Python `float(value)`: numbers and bools convert, numeric strings parse,
`None` and non-numeric strings raise (`TypeError`/`ValueError` → `none`). -/
def pyFloat : PValue → Option ℚ
  | .vNull => none
  | .vBool b => some (if b then 1 else 0)
  | .vInt n => some (n : ℚ)
  | .vFloat q => some q
  | .vStr s => parseFloatStr s

/-- The first loop of `_validate_request`: a parameter whose value is `None`
is replaced by the schema default; a `KeyError` (parameter not declared, or
no `"default"` key) leaves it unchanged. -/
def substDefault (schemas : List (String × ParamSchema)) (p : String × PValue) :
    String × PValue :=
  match p.2 with
  | .vNull =>
      match schemas.find? (fun e => e.1 == p.1) with
      | some (_, sch) =>
          match sch.default with
          | some d => (p.1, d)
          | none => p
      | none => p
  | _ => p

/-- One iteration of the second loop of `_validate_request` for a declared
parameter: coerce by declared type, store the coerced value back into the
request (the source stores before the bounds check, so the first component
is the value left in the request even when the second is an error), then
enforce `min`/`max` or enum membership. Declared types other than
`float`/`int`/`enum` fall through with no effect, as in the source. -/
def coerceStep (sch : ParamSchema) (v : PValue) : PValue × Except PyErr Unit :=
  if sch.type = "float" then
    match pyFloat v with
    | none => (v, .error (.http 400 "Parameter has invalid type"))
    | some q =>
        let v' := PValue.vFloat q
        match sch.min with
        | some lo =>
            if q < lo then (v', .error (.http 400 "Parameter below minimum"))
            else
              match sch.max with
              | some hi =>
                  if hi < q then (v', .error (.http 400 "Parameter above maximum"))
                  else (v', .ok ())
              | none => (v', .ok ())
        | none =>
            match sch.max with
            | some hi =>
                if hi < q then (v', .error (.http 400 "Parameter above maximum"))
                else (v', .ok ())
            | none => (v', .ok ())
  else if sch.type = "int" then
    match pyFloat v with
    | none => (v, .error (.http 400 "Parameter has invalid type"))
    | some q =>
        let n := qtrunc q
        let v' := PValue.vInt n
        match sch.min with
        | some lo =>
            if (n : ℚ) < lo then (v', .error (.http 400 "Parameter below minimum"))
            else
              match sch.max with
              | some hi =>
                  if hi < (n : ℚ) then (v', .error (.http 400 "Parameter above maximum"))
                  else (v', .ok ())
              | none => (v', .ok ())
        | none =>
            match sch.max with
            | some hi =>
                if hi < (n : ℚ) then (v', .error (.http 400 "Parameter above maximum"))
                else (v', .ok ())
            | none => (v', .ok ())
  else if sch.type = "enum" then
    if v ∈ sch.values then (v, .ok ())
    else (v, .error (.http 400 "Parameter not in allowed values"))
  else (v, .ok ())

/-- The second loop of `_validate_request`, in request-dict order: declared
parameters are coerced in place; the first failure aborts the loop, leaving
earlier coercions (and the stored value of the failing parameter) in the
request. Undeclared parameters pass through untouched. -/
def validateParams (schemas : List (String × ParamSchema)) :
    List (String × PValue) → Except PyErr Unit × List (String × PValue)
  | [] => (.ok (), [])
  | (k, v) :: rest =>
      match schemas.find? (fun e => e.1 == k) with
      | none =>
          let out := validateParams schemas rest
          (out.1, (k, v) :: out.2)
      | some (_, sch) =>
          let step := coerceStep sch v
          match step.2 with
          | .error e => (.error e, (k, step.1) :: rest)
          | .ok _ =>
              let out := validateParams schemas rest
              (out.1, (k, step.1) :: out.2)

/-- `RequestHandler._validate_request` (`app/core/request_handler.py`):
check the `messages` list is present and non-empty, check every message
carries `role` and `content`, substitute defaults for `None` parameters,
then coerce and bounds-check declared parameters. The source mutates the
request dict in place and returns `None`; the embedding returns the result
together with the post-state of the request object. -/
def validateRequest (r : Request) (m : ModelConfig) :
    Except PyErr Unit × Request :=
  match r.messages with
  | none => (.error (.http 400 "Request must contain messages field"), r)
  | some msgs =>
      if msgs.isEmpty then
        (.error (.http 400 "Request must contain messages field"), r)
      else if msgs.any (fun msg => msg.role.isNone || msg.content.isNone) then
        (.error (.http 400 "Invalid message format"), r)
      else
        let params1 := r.params.map (substDefault m.parameters)
        let out := validateParams m.parameters params1
        (out.1, { r with params := out.2 })

/-- `request.pop("messages", [])`: every provider adapter's `completion`
starts by removing the `messages` entry from the caller's request dict; the
removed list (or `[]`) is what the adapter goes on to transform and send. -/
def popMessages (r : Request) : List Message × Request :=
  (r.messages.getD [], { r with messages := none })

/-- The image-inlining step of `OpenAIProvider.completion` on one content
item: a `data:` URL is kept; any other `image_url` is fetched (the `fetch`
oracle stands for the HTTP download + base64 encoding) and rebuilt as an
inline `data:` URL without the `detail` key. Items of any other type are
not appended to `new_content` — the source drops them. -/
def openaiTransformItem (fetch : String → String) :
    ContentItem → Option ContentItem
  | .imageUrl url detail =>
      if url.startsWith "data:" then some (.imageUrl url detail)
      else some (.imageUrl ("data:image/jpeg;base64," ++ fetch url) none)
  | .text _ => none

/-- `OpenAIProvider.completion`'s in-place rewrite of one message: only
list-typed contents are rebuilt. -/
def openaiTransformMessage (fetch : String → String) (m : Message) : Message :=
  match m.content with
  | some (.items l) =>
      { m with content := some (.items (l.filterMap (openaiTransformItem fetch))) }
  | _ => m

/-- `OpenAIProvider.completion` (`app/providers/openai.py`), up to the
upstream call: pop `messages` out of the caller's request, inline images,
and return the message list handed to the upstream client together with the
post-state of the caller's request object. -/
def openaiCompletionCall (fetch : String → String) (r : Request) :
    List Message × Request :=
  let popped := popMessages r
  (popped.1.map (openaiTransformMessage fetch), popped.2)

/-- The environment of a dispatch: the upstream outcome for a given request
and 0-based attempt index, and the image-download oracle. -/
structure DispatchEnv where
  outcome : Request → ℕ → Except String Response
  fetch : String → String

/-- The observable result of `_process_request_with_retry`: the return or
raised exception, the post-state of the (mutated) request object, the
retry-attempts list, and the number of upstream dispatch attempts made. -/
structure RetryResult where
  result : Except PyErr (Option Response)
  request : Request
  attempts : List Attempt
  dispatches : ℕ
deriving Repr

/-- The `for attempt in range(max_retries)` loop of
`_process_request_with_retry`: each iteration calls the adapter (which pops
`messages` from the request), appends a failure entry on error — re-raising
on the last attempt — and on success appends a success entry only when
`attempt > 0`, then returns. Exhausting the range (only possible when
`max_retries = 0`) falls off the function, returning `None`. Structure:
`k` is the number of iterations left, `attempt` the current index. -/
def processLoop (env : DispatchEnv) (maxRetries : ℕ) :
    ℕ → ℕ → Request → List Attempt → ℕ → RetryResult
  | 0, _, r, acc, n => ⟨.ok none, r, acc, n⟩
  | k + 1, attempt, r, acc, n =>
      let r' := (popMessages r).2
      match env.outcome r attempt with
      | .ok resp =>
          ⟨.ok (some resp), r',
            (if 0 < attempt then
              acc ++ [⟨attempt + 1, "success", none⟩] else acc), n + 1⟩
      | .error msg =>
          let acc' := acc ++ [⟨attempt + 1, "failed", some msg⟩]
          if attempt = maxRetries - 1 then ⟨.error (.exn msg), r', acc', n + 1⟩
          else processLoop env maxRetries k (attempt + 1) r' acc' (n + 1)

/-- `RequestHandler._process_request_with_retry` for an already-selected
provider: run the retry loop from attempt 0 with an empty attempts list. -/
def processRequestWithRetry (env : DispatchEnv) (cfg : RetryConfig)
    (r : Request) : RetryResult :=
  processLoop env cfg.max_retries cfg.max_retries 0 r [] 0

/-- The observable outcome of one `handle_request` call: the returned
response or raised exception, the post-state of the shared stores, the
post-state of the (mutated) request dict, and the number of lower-tier
model substitutions performed (instrumentation counting the recursive
fallback entries). -/
structure HandleOut where
  result : Except PyErr Response
  world : World
  req : Request
  subs : ℕ

/-- The request-log document `_log_error` inserts on a failed request
(`status = "failed"`, no retry-attempts or cost fields). -/
def failedLog (key : String) (r : Request) : LogEntry :=
  { api_key := key, model_id := r.model,
    message_count := (r.messages.getD []).length,
    status := "failed", retry_attempts := [], cost := none }

/-- The body of `RequestHandler.handle_request`
(`app/core/request_handler.py`), with the recursive re-entry from
`_handle_insufficient_balance` abstracted as `recur`. Steps, in source
order: credential lookup (401/403), model lookup (400), rate-limit check,
parameter validation, cost estimate and balance check with lower-tier
fallback (which substitutes `request["model"]` and re-enters
`handle_request`), dispatch with retry, settlement
(`_calculate_actual_cost` + `deduct_balance`), completed-request log. The
`subs` field counts fallback re-entries. -/
def handleStep (recur : World → Request → String → HandleOut)
    (env : DispatchEnv) (now : Timestamp)
    (w : World) (r : Request) (key : String) : HandleOut :=
  match getApiConfig w key with
        | none => ⟨.error (.http 401 "Invalid API key"), w, r, 0⟩
        | some apiCfg =>
          if apiCfg.status ≠ some "active" then
            ⟨.error (.http 403 "API key is not active"), w, r, 0⟩
          else
            match getModelConfig w r.model with
            | none => ⟨.error (.http 400 "Model not found"), w, r, 0⟩
            | some modelCfg =>
              let rl := checkRateLimits w.redis key apiCfg.rate_limits now
              let w1 := { w with redis := rl.2 }
              match rl.1 with
              | .error e => ⟨.error e, w1, r, 0⟩
              | .ok _ =>
                let v := validateRequest r modelCfg
                let r1 := v.2
                match v.1 with
                | .error e => ⟨.error e, w1, r1, 0⟩
                | .ok _ =>
                  let est := estimateCost r1 modelCfg
                  match checkBalance w1 key est with
                  | .error e => ⟨.error e, w1, r1, 0⟩
                  | .ok true =>
                    if modelCfg.provider ∉ ["openai", "anthropic", "xai"] then
                      ⟨.error (.exn "KeyError"), w1, r1, 0⟩
                    else
                      let rr := processRequestWithRetry env
                        apiCfg.retry_config r1
                      match rr.result with
                      | .error e => ⟨.error e, w1, rr.request, 0⟩
                      | .ok none =>
                          ⟨.error (.exn "AttributeError"), w1, rr.request, 0⟩
                      | .ok (some resp) =>
                        let cost := calculateActualCost resp modelCfg
                        match deductBalance w1 key cost with
                        | .error e => ⟨.error e, w1, rr.request, 0⟩
                        | .ok w2 =>
                          let entry : LogEntry :=
                            { api_key := key, model_id := rr.request.model,
                              message_count :=
                                (rr.request.messages.getD []).length,
                              status := "completed",
                              retry_attempts := rr.attempts,
                              cost := some cost }
                          ⟨.ok resp,
                            { w2 with requests := w2.requests ++ [entry] },
                            rr.request, 0⟩
                  | .ok false =>
                    if ¬ apiCfg.retry_config.fallback_to_lower_tier then
                      ⟨.error (.http 402 "Insufficient balance"), w1, r1, 0⟩
                    else
                      match getModelConfig w1 r1.model with
                      | none => ⟨.error (.http 400 "Model not found"), w1, r1, 0⟩
                      | some cur =>
                        match findLowerTierModel w1 cur.capability_level
                            cur.capabilities with
                        | none =>
                            ⟨.error (.http 402
                              "Insufficient balance and no lower tier model available"),
                              w1, r1, 0⟩
                        | some lt =>
                          let r2 := { r1 with model := lt.model_id }
                          let inner := recur w1 r2 key
                          ⟨inner.result, inner.world, inner.req, inner.subs + 1⟩

/-- `RequestHandler.handle_request` proper: run the pipeline body, and on
any raised exception append the failed-request log (`_log_error`) before
re-raising, as the surrounding `try/except` does. The fuel argument bounds
the nesting depth of the lower-tier fallback recursion (the source
recursion is unbounded; CPython raises `RecursionError` at its stack
limit, which the fuel-0 case models). -/
def handleRequest (env : DispatchEnv) (now : Timestamp) :
    ℕ → World → Request → String → HandleOut
  | 0, w, r, _ => ⟨.error (.exn "RecursionError"), w, r, 0⟩
  | fuel + 1, w, r, key =>
      let b := handleStep (handleRequest env now fuel) env now w r key
      match b.result with
      | .ok _ => b
      | .error e =>
          ⟨.error e,
            { b.world with requests := b.world.requests ++ [failedLog key b.req] },
            b.req, b.subs⟩

/-- `str()` of a raised exception as the endpoint interpolates it:
`StarletteHTTPException.__str__` is `"{status_code}: {detail}"`. -/
def errStr : PyErr → String
  | .http c d => toString c ++ ": " ++ d
  | .exn m => m

/-- The error envelope produced by `http_exception_handler` in
`app/main.py`: status code and the short message. -/
structure Envelope where
  code : ℕ
  message : String
deriving DecidableEq, Repr

/-- `api_key.startswith(settings.API_KEY_PREFIX)` at the default prefix
configuration value, compared as character lists. -/
def hasKeyPrefixSk (s : String) : Bool :=
  s.data.take 3 == "sk-".data

/-- The `POST /v1/chat/completions` route (`create_chat_completion` in
`app/main.py`): the `validate_api_key` dependency rejects a credential
without the configured prefix with 401 (`hasKeyPrefixSk` embeds
`api_key.startswith(settings.API_KEY_PREFIX)` at the default `"sk-"`); the
handler call is wrapped in `try/except Exception` that re-raises every
failure — `HTTPException`s included — as `HTTPException(500, str(e))`,
rendered by `http_exception_handler` into the error envelope. -/
def createChatCompletion (env : DispatchEnv) (now : Timestamp) (fuel : ℕ)
    (w : World) (r : Request) (key : String) :
    Except Envelope Response × World :=
  if hasKeyPrefixSk key then
    let out := handleRequest env now fuel w r key
    match out.result with
    | .ok resp => (.ok resp, out.world)
    | .error e => (.error ⟨500, errStr e⟩, out.world)
  else
    (.error ⟨401, "Invalid API key format"⟩, w)

instance {ε α : Type} [DecidableEq ε] [DecidableEq α] :
    DecidableEq (Except ε α) := fun x y =>
  match x, y with
  | .ok a, .ok b =>
      if h : a = b then .isTrue (by rw [h]) else .isFalse (by simp [h])
  | .error a, .error b =>
      if h : a = b then .isTrue (by rw [h]) else .isFalse (by simp [h])
  | .ok _, .error _ => .isFalse (by simp)
  | .error _, .ok _ => .isFalse (by simp)

/-! ## Concrete fixtures used by the evaluation theorems -/

/-- A fixed wall clock (UTC minute 5). -/
def testNow : Timestamp := ⟨5, "2026-10-12", "2026-10"⟩

/-- A counter store with no keys set. -/
def zeroStore : RStore := ⟨[], []⟩

/-- Text-only capabilities. -/
def textCaps : Capabilities := ⟨true, false, false⟩

/-- An active text model at the given capability level whose estimated cost
is controlled through the output price (`max_tokens = 1000000` makes the
estimate `1.2 × output_price`). -/
def tierModel (id : String) (lvl : ℤ) (outP : ℚ) : ModelConfig :=
  { model_id := id, provider := "openai", capabilities := textCaps,
    pricing := ⟨0, outP, none⟩, capability_level := lvl,
    max_tokens := some 1000000, parameters := [], status := "active" }

/-- A stub upstream that always succeeds with fixed usage, and a stub image
fetcher. -/
def okUsage : Usage := ⟨5, 10, 15⟩

/-- The response the stub upstream returns. -/
def okResponse : Response := ⟨some okUsage⟩

/-- Dispatch environment whose upstream always succeeds. -/
def dispatchOk : DispatchEnv := ⟨fun _ _ => .ok okResponse, fun _ => ""⟩

/-- Credential with balance 2 and lower-tier fallback enabled. -/
def fallCred : ApiConfig :=
  ⟨"sk-fall", 2, ⟨10, 10, 10, 5⟩, ⟨3, 0, true⟩, some "active"⟩

/-- World with three active models at capability levels 3, 2, 1 whose
estimated costs are 12, 6 and 1.2 against a balance of 2. -/
def fallWorld : World :=
  ⟨zeroStore, [fallCred],
    [tierModel "model-a" 3 10, tierModel "model-b" 2 5, tierModel "model-c" 1 1],
    [], []⟩

/-- A request for the level-3 model with one short user message. -/
def fallReq : Request :=
  ⟨"model-a", some [⟨some "user", some (.str "hi")⟩], []⟩

/-- Credential with a per-minute quota of 1 (spec scenario 2). -/
def limCred : ApiConfig :=
  ⟨"sk-lim", 100, ⟨1, 10, 10, 5⟩, ⟨3, 0, false⟩, some "active"⟩

/-- World for the rate-limit scenario: one credential, one free model. -/
def limWorld : World := ⟨zeroStore, [limCred], [tierModel "model-z" 1 0], [], []⟩

/-- The request both calls of the rate-limit scenario send. -/
def limReq : Request :=
  ⟨"model-z", some [⟨some "user", some (.str "hi")⟩], []⟩

/-- The world after the first (successful) call of the rate-limit
scenario. -/
def limWorld1 : World :=
  (createChatCompletion dispatchOk testNow 10 limWorld limReq "sk-lim").2

/-- A one-message request whose content length 5 is not divisible by 4. -/
def estReq : Request := ⟨"m", some [⟨some "user", some (.str "hello")⟩], []⟩

/-- A model priced so the estimate equals the input-token count times 1.2. -/
def estModel : ModelConfig :=
  { model_id := "m", provider := "openai", capabilities := textCaps,
    pricing := ⟨1000000, 0, none⟩, capability_level := 1,
    max_tokens := some 0, parameters := [], status := "active" }

/-- A model declaring an `int` parameter `max_tokens` in `[1, 4096]`. -/
def vModel : ModelConfig :=
  { estModel with parameters :=
      [("max_tokens", ⟨"int", some 1, some 4096, [], some (.vInt 2048)⟩)] }

/-- A request passing `max_tokens` as the float `2.7`. -/
def vReq : Request :=
  ⟨"m", some [⟨some "user", some (.str "hi")⟩],
    [("max_tokens", .vFloat (mkRat 27 10))]⟩

/-- A model without the image capability. -/
def noImageModel : ModelConfig :=
  { estModel with capabilities := ⟨true, false, true⟩ }

/-- A request whose single message carries an image item. -/
def imageReq : Request :=
  ⟨"m", some [⟨some "user", some (.items [.imageUrl "http://x/img" none])⟩], []⟩

/-! ## Specification-shaped definitions used to compare against the code -/

/-- Number of image items in a message list, counted as `_estimate_cost`
counts surcharges (items typed `image`/`image_url` inside list contents). -/
def imageItemCount (msgs : List Message) : ℕ :=
  (msgs.map (fun m =>
    match m.content with
    | some (.items l) =>
        (l.filter (fun i => i.itemType == "image" || i.itemType == "image_url")).length
    | _ => 0)).sum

/-- The claim's estimate formula, verbatim from the spec:
`1.2 × (Σ_message ceil(len(stringified content)/4) × input_price / 1e6
+ max_tokens × output_price / 1e6 + image_count × image_input_price)`. -/
def specEstimateCeil (req : Request) (mc : ModelConfig) : ℚ :=
  let msgs := req.messages.getD []
  let inputCost : ℚ := (msgs.map (fun m =>
    ((((contentStrOpt m.content).length + 3) / 4 : ℕ) : ℚ)
      * mc.pricing.input_price / 1000000)).sum
  let outputCost : ℚ :=
    ((mc.max_tokens.getD 2048 : ℕ) : ℚ) * mc.pricing.output_price / 1000000
  let imageCost : ℚ :=
    (imageItemCount msgs : ℚ) * mc.pricing.image_input_price.getD 0
  (6 / 5) * (inputCost + outputCost + imageCost)

/-- The estimate formula with floor division (`len // 4`), which is what
the source computes. -/
def specEstimateFloor (req : Request) (mc : ModelConfig) : ℚ :=
  let msgs := req.messages.getD []
  let inputCost : ℚ := (msgs.map (fun m =>
    (((contentStrOpt m.content).length / 4 : ℕ) : ℚ)
      * mc.pricing.input_price / 1000000)).sum
  let outputCost : ℚ :=
    ((mc.max_tokens.getD 2048 : ℕ) : ℚ) * mc.pricing.output_price / 1000000
  let imageCost : ℚ :=
    (imageItemCount msgs : ℚ) * mc.pricing.image_input_price.getD 0
  (6 / 5) * (inputCost + outputCost + imageCost)

/-- The claim "each dispatch attempt is appended to the retry-attempts list
with its status", as a predicate on a retry run: as many entries as
upstream dispatch attempts. -/
def eachAttemptAppended (res : RetryResult) : Prop :=
  res.attempts.length = res.dispatches

/-- A store on which the concurrency gauge is already at the limit. -/
def busyStore : RStore := ⟨[(.concurrent "sk-w", 5)], []⟩

/-!
## Theorems

First the bridges from the `mkRat`-based arithmetic to `ℚ`'s field
operations, then per-store helper lemmas, then the claim theorems.
-/

theorem qadd_eq (a b : ℚ) : qadd a b = a + b := (Rat.add_def' a b).symm

theorem qsub_eq (a b : ℚ) : qsub a b = a - b := (Rat.sub_def' a b).symm

theorem qmul_eq (a b : ℚ) : qmul a b = a * b := by
  rw [qmul, Rat.mul_def, Rat.normalize_eq_mkRat]

theorem qinv_eq (a : ℚ) : qinv a = a⁻¹ := by
  rw [qinv, show (a⁻¹ : ℚ) = a.inv from rfl, Rat.inv_def]

theorem qdiv_eq (a b : ℚ) : qdiv a b = a / b := by
  rw [qdiv, qmul_eq, qinv_eq, div_eq_mul_inv]

theorem qsuml_cons (x : ℚ) (l : List ℚ) (acc : ℚ) :
    (x :: l).foldl qadd acc = l.foldl qadd (acc + x) := by
  simp [List.foldl_cons, qadd_eq]

theorem foldl_qadd_eq_sum (l : List ℚ) : ∀ acc : ℚ, l.foldl qadd acc = acc + l.sum := by
  induction l with
  | nil => intro acc; simp
  | cons x l ih =>
      intro acc
      rw [List.foldl_cons, qadd_eq, ih, List.sum_cons]
      ring

theorem qsuml_eq (l : List ℚ) : qsuml l = l.sum := by
  rw [qsuml, foldl_qadd_eq_sum]; ring

theorem qtrunc_intCast (n : ℤ) : qtrunc ((n : ℤ) : ℚ) = n := by
  simp [qtrunc, Rat.intCast_num, Rat.intCast_den, Int.tdiv_one]

theorem rget_val_only (v t : List (RKey × ℕ)) (k : RKey) :
    rget ⟨v, t⟩ k = rget ⟨v, []⟩ k := by
  simp [rget]

theorem rttl_ttl_only (v t : List (RKey × ℕ)) (k : RKey) :
    rttl ⟨v, t⟩ k = rttl ⟨[], t⟩ k := by
  simp [rttl]

theorem rget_eta (s : RStore) (k : RKey) : rget ⟨s.val, []⟩ k = rget s k := by
  simp [rget]

theorem rttl_eta (s : RStore) (k : RKey) : rttl ⟨[], s.ttl⟩ k = rttl s k := by
  simp [rttl]

theorem rget_cons_self (v t : List (RKey × ℕ)) (k : RKey) (n : ℕ) :
    rget ⟨(k, n) :: v, t⟩ k = n := by
  simp [rget]

theorem rget_cons_ne (v t : List (RKey × ℕ)) (k k' : RKey) (n : ℕ) (hk : k' ≠ k) :
    rget ⟨(k, n) :: v, t⟩ k' = rget ⟨v, t⟩ k' := by
  simp [rget, List.find?_cons, hk, Ne.symm hk]

theorem rttl_cons_self (v t : List (RKey × ℕ)) (k : RKey) (n : ℕ) :
    rttl ⟨v, (k, n) :: t⟩ k = some n := by
  simp [rttl]

theorem rttl_cons_ne (v t : List (RKey × ℕ)) (k k' : RKey) (n : ℕ) (hk : k' ≠ k) :
    rttl ⟨v, (k, n) :: t⟩ k' = rttl ⟨v, t⟩ k' := by
  simp [rttl, List.find?_cons, hk, Ne.symm hk]

/-- C5. `admit(credential, limits)` (= `check_rate_limits`) first reads the
concurrency gauge and fails immediately with RateLimited (429) when it is
at or above `limits.concurrent`, leaving the store untouched; otherwise it
increments the minute, day and month window counters, sets their TTLs to
60 s, 86400 s and 2592000 s, succeeds exactly when every post-increment
value is within its quota, fails only with 429, and the increments stay in
place even on failure (no rollback). -/
theorem checkRateLimits_spec (s : RStore) (key : String) (rl : RateLimits) (now : Timestamp) :
    (rl.concurrent_requests ≤ rget s (.concurrent key) →
      checkRateLimits s key rl now =
        (.error (.http 429 "Too many concurrent requests"), s)) ∧
    (rget s (.concurrent key) < rl.concurrent_requests →
      (rget (checkRateLimits s key rl now).2 (.minute key now.minute) =
          rget s (.minute key now.minute) + 1 ∧
       rget (checkRateLimits s key rl now).2 (.day key now.date) =
          rget s (.day key now.date) + 1 ∧
       rget (checkRateLimits s key rl now).2 (.month key now.yearMonth) =
          rget s (.month key now.yearMonth) + 1) ∧
      (rttl (checkRateLimits s key rl now).2 (.minute key now.minute) = some 60 ∧
       rttl (checkRateLimits s key rl now).2 (.day key now.date) = some 86400 ∧
       rttl (checkRateLimits s key rl now).2 (.month key now.yearMonth) = some 2592000) ∧
      ((checkRateLimits s key rl now).1 = .ok () ↔
        (rget s (.minute key now.minute) + 1 ≤ rl.requests_per_minute ∧
         rget s (.day key now.date) + 1 ≤ rl.requests_per_day ∧
         rget s (.month key now.yearMonth) + 1 ≤ rl.requests_per_month)) ∧
      (∀ e, (checkRateLimits s key rl now).1 = .error e →
        ∃ d, e = .http 429 d)) := by
  constructor
  · intro h
    rw [checkRateLimits, if_pos h]
  · intro h
    have hn : ¬ rl.concurrent_requests ≤ rget s (.concurrent key) := not_le.mpr h
    rw [checkRateLimits, if_neg hn]
    simp only [rincr, rexpire]
    set mk := RKey.minute key now.minute with hmk
    set dk := RKey.day key now.date with hdk
    set mok := RKey.month key now.yearMonth with hmok
    have h1 : dk ≠ mk := by simp [hmk, hdk]
    have h2 : mok ≠ mk := by simp [hmk, hmok]
    have h3 : mok ≠ dk := by simp [hdk, hmok]
    split_ifs with hα hβ hγ <;>
      refine ⟨⟨?_, ?_, ?_⟩, ⟨?_, ?_, ?_⟩, ?_, ?_⟩ <;>
      simp_all only [rget_val_only, rttl_ttl_only, rget_cons_self, rget_cons_ne,
        rttl_cons_self, rttl_cons_ne, rget_eta, rttl_eta, h1, h2, h3, ne_eq,
        not_false_eq_true, Except.error.injEq, Except.ok.injEq, reduceCtorEq,
        false_iff, true_iff, not_and, not_le, not_lt, forall_eq, PyErr.http.injEq,
        exists_eq_right, exists_eq_left] <;>
      first
        | omega
        | (intro e he; exact ⟨_, he.symm⟩)
        | (exact fun e he => he.elim)
        | (constructor <;> omega)
        | rfl
        | trivial

/-- Witness for C5: the fail-fast branch on a store whose gauge is at the
limit, and the minute-counter increment on an empty store. -/
theorem checkRateLimits_spec_witness :
    checkRateLimits busyStore "sk-w" ⟨1, 10, 10, 2⟩ testNow =
      (.error (.http 429 "Too many concurrent requests"), busyStore) ∧
    rget (checkRateLimits zeroStore "sk-w" ⟨1, 10, 10, 2⟩ testNow).2 (.minute "sk-w" 5) =
      rget zeroStore (.minute "sk-w" 5) + 1 :=
  ⟨(checkRateLimits_spec busyStore "sk-w" ⟨1, 10, 10, 2⟩ testNow).1 (by decide),
   ((checkRateLimits_spec zeroStore "sk-w" ⟨1, 10, 10, 2⟩ testNow).2 (by decide)).1.1⟩

theorem find_updateBalance (l : List ApiConfig) (k : String) (b : ℚ) (c : ApiConfig)
    (h : l.find? (fun c => c.api_key == k) = some c) :
    (updateBalance l k b).find? (fun c => c.api_key == k) =
      some { c with balance := b } := by
  induction l with
  | nil => simp at h
  | cons a l ih =>
      by_cases hk : (a.api_key == k) = true
      · simp only [List.find?_cons, hk] at h
        cases h
        simp only [updateBalance]
        rw [if_pos hk]
        simp [List.find?_cons, hk]
      · have hkf : (a.api_key == k) = false := by simpa using hk
        simp only [List.find?_cons, hkf] at h
        simp only [updateBalance]
        rw [if_neg hk]
        simp only [List.find?_cons, hkf]
        exact ih h

/-- C8. `deduct_balance`: when the credential exists, the call succeeds, the
stored balance becomes the previous balance minus the cost, and exactly one
transaction entry is appended whose fields satisfy
`new_balance + amount = previous_balance` with kind `"deduction"`. -/
theorem deductBalance_ledger (w : World) (k : String) (cost : ℚ) (c : ApiConfig)
    (h : getApiConfig w k = some c) :
    ∃ w', deductBalance w k cost = .ok w' ∧
      getApiConfig w' k = some { c with balance := c.balance - cost } ∧
      ∃ t, w'.transactions = w.transactions ++ [t] ∧
        t.api_key = k ∧ t.amount = cost ∧ t.transaction_type = "deduction" ∧
        t.old_balance = c.balance ∧ t.new_balance + t.amount = c.balance := by
  refine ⟨_, by rw [deductBalance, h], ?_, ?_⟩
  · show getApiConfig
      { w with api_keys := updateBalance w.api_keys k (qsub c.balance cost) } k = _
    unfold getApiConfig at h ⊢
    rw [qsub_eq]
    exact find_updateBalance w.api_keys k (c.balance - cost) c h
  · refine ⟨_, rfl, rfl, rfl, rfl, rfl, ?_⟩
    show qsub c.balance cost + cost = c.balance
    rw [qsub_eq]
    ring

/-- Witness for C8 at the concrete rate-limit world. -/
theorem deductBalance_ledger_witness :
    getApiConfig limWorld "sk-lim" = some limCred ∧
    ∃ w', deductBalance limWorld "sk-lim" 1 = .ok w' ∧
      getApiConfig w' "sk-lim" = some { limCred with balance := limCred.balance - 1 } ∧
      ∃ t, w'.transactions = limWorld.transactions ++ [t] ∧
        t.api_key = "sk-lim" ∧ t.amount = 1 ∧ t.transaction_type = "deduction" ∧
        t.old_balance = limCred.balance ∧ t.new_balance + t.amount = limCred.balance :=
  ⟨by decide, deductBalance_ledger limWorld "sk-lim" 1 limCred (by decide)⟩

theorem itemSumEq (pr : Pricing) (l : List ContentItem) :
    (l.map (itemImageCost pr)).sum =
      ((l.filter (fun i =>
          i.itemType == "image" || i.itemType == "image_url")).length : ℚ)
        * pr.image_input_price.getD 0 := by
  induction l with
  | nil => simp
  | cons i l ih =>
      by_cases hi : (i.itemType == "image" || i.itemType == "image_url") = true
      · simp [itemImageCost, hi, ih]
        ring
      · simp [itemImageCost, hi, ih]

theorem imageCostAcc_eq (pr : Pricing) (msgs : List Message) :
    imageCostAcc pr msgs =
      (imageItemCount msgs : ℚ) * pr.image_input_price.getD 0 := by
  unfold imageCostAcc imageItemCount
  rw [qsuml_eq]
  induction msgs with
  | nil => simp
  | cons m l ih =>
      rw [List.map_cons, List.sum_cons, ih, List.map_cons, List.sum_cons]
      push_cast
      rw [add_mul]
      congr 1
      cases hm : m.content with
      | none => simp
      | some c =>
          cases c with
          | str s => simp
          | items il => simp [qsuml_eq, itemSumEq]

theorem inputCostSumEq (msgs : List Message) (p : ℚ) :
    (msgs.map (fun m =>
        (((contentStrOpt m.content).length / 4 : ℕ) : ℚ) * p / 1000000)).sum
      = ((estimatedInputTokens msgs : ℕ) : ℚ) / 1000000 * p := by
  unfold estimatedInputTokens
  induction msgs with
  | nil => simp
  | cons m l ih =>
      rw [List.map_cons, List.sum_cons, ih, List.map_cons, List.sum_cons]
      push_cast
      ring

/-- C4 (amended). `_estimate_cost` equals the spec's formula with the ceil
replaced by the source's floor division:
`1.2 × (Σ_message (len(stringified content) // 4) × input_price / 1e6
+ max_tokens × output_price / 1e6 + image_count × image_input_price)`. -/
theorem estimateCost_eq_floor_formula (req : Request) (mc : ModelConfig) :
    estimateCost req mc = specEstimateFloor req mc := by
  simp only [estimateCost, specEstimateFloor]
  rw [qmul_eq, qadd_eq, qadd_eq, qmul_eq, qmul_eq, qdiv_eq, qdiv_eq,
    imageCostAcc_eq, inputCostSumEq, Rat.mkRat_eq_div]
  push_cast
  ring

/-- C4 (counterexample). On a one-message request with content `"hello"`
(length 5) and unit input pricing, the source's estimate (floor division)
differs from the claim's ceil formula: 1.2 versus 2.4. -/
theorem estimateCost_ne_ceil_formula :
    estimateCost estReq estModel ≠ specEstimateCeil estReq estModel := by
  have h1 : estimateCost estReq estModel = mkRat 6 5 := by decide
  have hl : "hello".length = 5 := by decide
  have h2 : specEstimateCeil estReq estModel = 12 / 5 := by
    norm_num [specEstimateCeil, estReq, estModel, imageItemCount,
      contentStrOpt, contentStr, hl]
  rw [h1, h2, Rat.mkRat_eq_div]
  norm_num


theorem coerceStep_idem (sch : ParamSchema) (v v' : PValue)
    (h : coerceStep sch v = (v', .ok ())) :
    coerceStep sch v' = (v', .ok ()) := by
  by_cases hf : sch.type = "float"
  · rw [coerceStep, if_pos hf] at h
    rw [coerceStep, if_pos hf]
    cases hp : pyFloat v with
    | none => rw [hp] at h; simp at h
    | some q =>
        rw [hp] at h
        have hv' : v' = PValue.vFloat q := by
          rcases hmin : sch.min with _ | lo <;> rcases hmax : sch.max with _ | hi <;>
            simp only [hmin, hmax] at h <;> (try split_ifs at h) <;> simp_all
        subst hv'
        have hq : pyFloat (PValue.vFloat q) = some q := rfl
        rw [hq]
        rcases hmin : sch.min with _ | lo <;> rcases hmax : sch.max with _ | hi <;>
          simp only [hmin, hmax] at h ⊢ <;> (try split_ifs at h ⊢) <;> simp_all
  · by_cases hi : sch.type = "int"
    · rw [coerceStep, if_neg hf, if_pos hi] at h
      rw [coerceStep, if_neg hf, if_pos hi]
      cases hp : pyFloat v with
      | none => rw [hp] at h; simp at h
      | some q =>
          rw [hp] at h
          have hv' : v' = PValue.vInt (qtrunc q) := by
            rcases hmin : sch.min with _ | lo <;> rcases hmax : sch.max with _ | hi2 <;>
              simp only [hmin, hmax] at h <;> (try split_ifs at h) <;> simp_all
          subst hv'
          have hq : pyFloat (PValue.vInt (qtrunc q)) = some ((qtrunc q : ℤ) : ℚ) := rfl
          rw [hq]
          have ht : qtrunc ((qtrunc q : ℤ) : ℚ) = qtrunc q := qtrunc_intCast _
          rcases hmin : sch.min with _ | lo <;> rcases hmax : sch.max with _ | hi2 <;>
            simp only [hmin, hmax, ht] at h ⊢ <;> (try split_ifs at h ⊢) <;> simp_all
    · by_cases he : sch.type = "enum"
      · rw [coerceStep, if_neg hf, if_neg hi, if_pos he] at h
        rw [coerceStep, if_neg hf, if_neg hi, if_pos he]
        split_ifs at h with hmem <;> simp_all
      · rw [coerceStep, if_neg hf, if_neg hi, if_neg he]

theorem coerceStep_out (sch : ParamSchema) (v : PValue) :
    (coerceStep sch v).1 = v ∨ (∃ q, (coerceStep sch v).1 = .vFloat q) ∨
      (∃ n, (coerceStep sch v).1 = .vInt n) := by
  by_cases hf : sch.type = "float"
  · rw [coerceStep, if_pos hf]
    cases hp : pyFloat v with
    | none => simp
    | some q =>
        rcases hmin : sch.min with _ | lo <;> rcases hmax : sch.max with _ | hi <;>
          simp only [hmin, hmax] <;> (try split_ifs) <;> simp
  · by_cases hi : sch.type = "int"
    · rw [coerceStep, if_neg hf, if_pos hi]
      cases hp : pyFloat v with
      | none => simp
      | some q =>
          rcases hmin : sch.min with _ | lo <;> rcases hmax : sch.max with _ | hi2 <;>
            simp only [hmin, hmax] <;> (try split_ifs) <;> simp
    · by_cases he : sch.type = "enum"
      · rw [coerceStep, if_neg hf, if_neg hi, if_pos he]
        split_ifs <;> simp
      · rw [coerceStep, if_neg hf, if_neg hi, if_neg he]
        simp

theorem substDefault_of_ne_null (S : List (String × ParamSchema))
    (p : String × PValue) (hp : p.2 ≠ .vNull) : substDefault S p = p := by
  obtain ⟨k, v⟩ := p
  cases v <;> simp_all [substDefault]

theorem substDefault_idem (S : List (String × ParamSchema)) (p : String × PValue) :
    substDefault S (substDefault S p) = substDefault S p := by
  obtain ⟨k, v⟩ := p
  by_cases hv : v = .vNull
  · subst hv
    cases hfind : S.find? (fun e => e.1 == k) with
    | none =>
        have h1 : substDefault S (k, .vNull) = (k, .vNull) := by
          simp only [substDefault, hfind]
        rw [h1, h1]
    | some e =>
        obtain ⟨k0, sch⟩ := e
        cases hd : sch.default with
        | none =>
            have h1 : substDefault S (k, .vNull) = (k, .vNull) := by
              simp only [substDefault, hfind, hd]
            rw [h1, h1]
        | some d =>
            have h1 : substDefault S (k, .vNull) = (k, d) := by
              simp only [substDefault, hfind, hd]
            rw [h1]
            by_cases hdn : d = .vNull
            · subst hdn
              exact h1
            · exact substDefault_of_ne_null S (k, d) hdn
  · rw [substDefault_of_ne_null S (k, v) hv]
    exact substDefault_of_ne_null S (k, v) hv

theorem map_id_of_fixed {α : Type} (f : α → α) (l : List α)
    (h : ∀ x ∈ l, f x = x) : l.map f = l := by
  induction l with
  | nil => rfl
  | cons x l ih =>
      rw [List.map_cons, h x (List.mem_cons_self x l),
        ih (fun y hy => h y (List.mem_cons_of_mem x hy))]

theorem validateParams_idem (S : List (String × ParamSchema)) :
    ∀ (ps ps' : List (String × PValue)),
      (∀ p ∈ ps, substDefault S p = p) →
      validateParams S ps = (.ok (), ps') →
      (∀ p ∈ ps', substDefault S p = p) ∧
        validateParams S ps' = (.ok (), ps') := by
  intro ps
  induction ps with
  | nil =>
      intro ps' hfix h
      rw [validateParams] at h
      injection h with h1 h2
      subst h2
      exact ⟨by simp, by rw [validateParams]⟩
  | cons p rest ih =>
      obtain ⟨k, v⟩ := p
      intro ps' hfix h
      rw [validateParams] at h
      cases hfind : S.find? (fun e => e.1 == k) with
      | none =>
          rw [hfind] at h
          injection h with h1 h2
          subst h2
          have heq : validateParams S rest = (.ok (), (validateParams S rest).2) :=
            Prod.ext h1 rfl
          obtain ⟨hfixR, hvp⟩ :=
            ih _ (fun p hp => hfix p (List.mem_cons_of_mem _ hp)) heq
          constructor
          · intro p hp
            rcases List.mem_cons.mp hp with rfl | hp'
            · exact hfix _ (List.mem_cons_self _ _)
            · exact hfixR p hp'
          · rw [validateParams, hfind]
            simp [hvp]
      | some e =>
          obtain ⟨k0, sch⟩ := e
          rw [hfind] at h
          have h' : (match (coerceStep sch v).2 with
              | .error e => ((.error e : Except PyErr Unit),
                  (k, (coerceStep sch v).1) :: rest)
              | .ok _ =>
                  ((validateParams S rest).1,
                    (k, (coerceStep sch v).1) :: (validateParams S rest).2)) =
              ((.ok () : Except PyErr Unit), ps') := h
          clear h
          cases hstep : (coerceStep sch v).2 with
          | error e0 => rw [hstep] at h'; simp at h'
          | ok u =>
              cases u
              rw [hstep] at h'
              simp only [] at h'
              injection h' with h1 h2
              subst h2
              have heq : validateParams S rest = (.ok (), (validateParams S rest).2) :=
                Prod.ext h1 rfl
              obtain ⟨hfixR, hvp⟩ :=
                ih _ (fun p hp => hfix p (List.mem_cons_of_mem _ hp)) heq
              have hcoe : coerceStep sch v = ((coerceStep sch v).1, .ok ()) :=
                Prod.ext rfl hstep
              have hidem := coerceStep_idem sch v (coerceStep sch v).1 hcoe
              have hhead : substDefault S (k, (coerceStep sch v).1) =
                  (k, (coerceStep sch v).1) := by
                rcases coerceStep_out sch v with hout | ⟨q, hout⟩ | ⟨n, hout⟩
                · rw [hout]; exact hfix _ (List.mem_cons_self _ _)
                · rw [hout]; exact substDefault_of_ne_null S (k, .vFloat q) (by simp)
                · rw [hout]; exact substDefault_of_ne_null S (k, .vInt n) (by simp)
              constructor
              · intro p hp
                rcases List.mem_cons.mp hp with rfl | hp'
                · exact hhead
                · exact hfixR p hp'
              · rw [validateParams, hfind]
                simp [hidem, hvp]

/-- C9 (amended). `_validate_request` coerces the request in place; the
in-place coercion is idempotent: re-validating the post-state of a
successful validation succeeds and leaves it unchanged. -/
theorem validateRequest_idempotent (r : Request) (m : ModelConfig)
    (h : (validateRequest r m).1 = .ok ()) :
    validateRequest (validateRequest r m).2 m = (.ok (), (validateRequest r m).2) := by
  cases hm : r.messages with
  | none => rw [validateRequest, hm] at h; simp at h
  | some msgs =>
      simp only [validateRequest, hm] at h
      by_cases hemp : msgs.isEmpty
      · rw [if_pos hemp] at h; simp at h
      · rw [if_neg hemp] at h
        by_cases hbad : msgs.any (fun msg => msg.role.isNone || msg.content.isNone)
        · rw [if_pos hbad] at h; simp at h
        · rw [if_neg hbad] at h
          simp only [] at h
          obtain ⟨P, hP⟩ : ∃ P, validateParams m.parameters
              (r.params.map (substDefault m.parameters)) = (.ok (), P) :=
            ⟨_, Prod.ext h rfl⟩
          have hfix0 : ∀ p ∈ r.params.map (substDefault m.parameters),
              substDefault m.parameters p = p := by
            intro p hp
            obtain ⟨q, hq, rfl⟩ := List.mem_map.mp hp
            exact substDefault_idem m.parameters q
          obtain ⟨hfixP, hvalP⟩ := validateParams_idem m.parameters _ P hfix0 hP
          have hmapP := map_id_of_fixed _ _ hfixP
          have hval : validateRequest r m = (.ok (), { r with params := P }) := by
            simp only [validateRequest, hm]
            rw [if_neg hemp, if_neg hbad]
            simp [hP, hm]
          rw [hval]
          simp only [validateRequest, hm]
          rw [if_neg hemp, if_neg hbad]
          simp [hmapP, hvalP, hm]

/-- Witness for C9 at the concrete request/model: `max_tokens = 2.7` coerces
to the int 2 and re-validation is a fixpoint. -/
theorem validateRequest_idempotent_witness :
    (validateRequest vReq vModel).1 = .ok () ∧
    validateRequest (validateRequest vReq vModel).2 vModel =
      (.ok (), (validateRequest vReq vModel).2) :=
  ⟨by decide, validateRequest_idempotent vReq vModel (by decide)⟩

/-- C9 (counterexample). `_validate_request` is not pure: on a request
passing `max_tokens` as the float `2.7` against a schema typing it `int`,
validation succeeds and the request object afterwards differs from the
input (the value was coerced in place to the int `2`), refuting "returns
the coerced request without mutating its input". -/
theorem validateRequest_mutates :
    (validateRequest vReq vModel).1 = .ok () ∧
    (validateRequest vReq vModel).2 ≠ vReq ∧
    (validateRequest vReq vModel).2.params = [("max_tokens", .vInt 2)] := by
  refine ⟨by decide, by decide, by decide⟩

/-- C10. The live validator (`RequestHandler._validate_request`) contains no
image-capability check: a request whose message content holds an
`image_url` item passes validation unchanged against a model whose
capabilities exclude image input. (The repository's intended check lives in
the dead file `app/models/parameter_validator.py`, which rejects exactly
this input with 400.) -/
theorem validateRequest_accepts_image_without_capability :
    noImageModel.capabilities.image = false ∧
    imageReq.messages =
      some [⟨some "user", some (.items [.imageUrl "http://x/img" none])⟩] ∧
    validateRequest imageReq noImageModel = (.ok (), imageReq) := by
  refine ⟨by decide, by decide, by decide⟩


theorem processLoop_spec (env : DispatchEnv) (mr : ℕ) :
    ∀ (k attempt : ℕ) (r : Request) (acc : List Attempt) (n : ℕ),
      ∃ new c,
        (processLoop env mr k attempt r acc n).attempts = acc ++ new ∧
        (processLoop env mr k attempt r acc n).dispatches = n + c ∧
        c ≤ k ∧ new.length ≤ c ∧
        (∀ a ∈ new.dropLast, a.status = "failed") ∧
        (new.length = c ∨
          (new = [] ∧ c = 1 ∧ attempt = 0 ∧
            ∃ resp, (processLoop env mr k attempt r acc n).result = .ok (some resp))) := by
  intro k
  induction k with
  | zero =>
      intro attempt r acc n
      exact ⟨[], 0, by simp [processLoop], by simp [processLoop], le_refl 0,
        le_refl 0, by simp, Or.inl rfl⟩
  | succ k ih =>
      intro attempt r acc n
      cases ho : env.outcome r attempt with
      | ok resp =>
          simp only [processLoop, ho]
          by_cases hatt : 0 < attempt
          · refine ⟨[⟨attempt + 1, "success", none⟩], 1, ?_, rfl, by omega, by simp, by simp, ?_⟩
            · simp [hatt]
            · left; rfl
          · refine ⟨[], 1, ?_, rfl, by omega, by simp, by simp, ?_⟩
            · simp [hatt]
            · right
              exact ⟨rfl, rfl, by omega, resp, rfl⟩
      | error msg =>
          simp only [processLoop, ho]
          by_cases hlast : attempt = mr - 1
          · rw [if_pos hlast]
            exact ⟨[⟨attempt + 1, "failed", some msg⟩], 1, rfl, rfl, by omega,
              by simp, by simp, Or.inl rfl⟩
          · rw [if_neg hlast]
            obtain ⟨new1, c1, h1, h2, h3, h4, h5, h6⟩ :=
              ih (attempt + 1) (popMessages r).2
                (acc ++ [⟨attempt + 1, "failed", some msg⟩]) (n + 1)
            have hlen : new1.length = c1 := by
              rcases h6 with h6 | ⟨-, -, habs, -⟩
              · exact h6
              · omega
            refine ⟨⟨attempt + 1, "failed", some msg⟩ :: new1, c1 + 1, ?_, ?_, ?_, ?_, ?_, ?_⟩
            · rw [h1, List.append_assoc]
              rfl
            · rw [h2]; omega
            · omega
            · simp; omega
            · intro a ha
              cases new1 with
              | nil => simp at ha
              | cons y t =>
                  rw [List.dropLast_cons₂] at ha
                  rcases List.mem_cons.mp ha with rfl | ha'
                  · rfl
                  · exact h5 a ha'
            · left; simp [hlen]

/-- C7 (amended). For every dispatch run: the retry-attempts list never
exceeds `max_retries` entries, every entry except possibly the last has
status `"failed"` (so only the last may be a success), and every dispatch
attempt appends exactly one entry except a first-attempt success, which
appends nothing (`if attempt > 0` in the source). -/
theorem processRetry_spec (env : DispatchEnv) (cfg : RetryConfig) (r : Request) :
    (processRequestWithRetry env cfg r).attempts.length ≤ cfg.max_retries ∧
    (∀ a ∈ (processRequestWithRetry env cfg r).attempts.dropLast, a.status = "failed") ∧
    ((processRequestWithRetry env cfg r).attempts.length =
        (processRequestWithRetry env cfg r).dispatches ∨
      ((processRequestWithRetry env cfg r).attempts = [] ∧
        (processRequestWithRetry env cfg r).dispatches = 1 ∧
        ∃ resp, (processRequestWithRetry env cfg r).result = .ok (some resp))) := by
  obtain ⟨new, c, h1, h2, h3, h4, h5, h6⟩ :=
    processLoop_spec env cfg.max_retries cfg.max_retries 0 r [] 0
  rw [processRequestWithRetry] at *
  refine ⟨?_, ?_, ?_⟩
  · rw [h1]; simp; omega
  · rw [h1]; simpa using h5
  · rcases h6 with h6 | ⟨hnil, hc1, -, resp, hres⟩
    · left; rw [h1, h2]; simp [h6]
    · right
      exact ⟨by rw [h1, hnil]; rfl, by rw [h2, hc1], resp, hres⟩

/-- C7 (counterexample). With a stub upstream that succeeds immediately and
`max_retries = 3`, exactly one dispatch attempt happens but the
retry-attempts list stays empty: the first-attempt success is not appended,
refuting "each dispatch attempt is appended to the retry-attempts list". -/
theorem retry_first_success_not_appended :
    (processRequestWithRetry dispatchOk ⟨3, 0, true⟩ fallReq).dispatches = 1 ∧
    (processRequestWithRetry dispatchOk ⟨3, 0, true⟩ fallReq).attempts = [] ∧
    ¬ eachAttemptAppended (processRequestWithRetry dispatchOk ⟨3, 0, true⟩ fallReq) := by
  refine ⟨by decide, by decide, ?_⟩
  unfold eachAttemptAppended
  decide

/-- C6. `OpenAIProvider.completion` mutates the caller's request:
`request.pop("messages", [])` removes the `messages` entry, so after the
call the request object no longer carries its messages, it differs from the
pre-call object, and a second (retry) call dispatches an empty message
list. -/
theorem openaiCompletion_pops_messages :
    (openaiCompletionCall (fun _ => "IMG") fallReq).2.messages = none ∧
    (openaiCompletionCall (fun _ => "IMG") fallReq).2 ≠ fallReq ∧
    (openaiCompletionCall (fun _ => "IMG")
      ((openaiCompletionCall (fun _ => "IMG") fallReq).2)).1 = [] := by
  refine ⟨by decide, by decide, by decide⟩


theorem checkRateLimits_concurrent (s : RStore) (key : String) (rl : RateLimits)
    (now : Timestamp) (ck : String) :
    rget (checkRateLimits s key rl now).2 (.concurrent ck) =
      rget s (.concurrent ck) := by
  rw [checkRateLimits]
  simp only [rincr, rexpire]
  split_ifs <;>
    simp [rget_cons_ne, rget_val_only, rget_eta]

theorem deductBalance_redis (w : World) (k : String) (c : ℚ) (w' : World)
    (h : deductBalance w k c = .ok w') : w'.redis = w.redis := by
  rw [deductBalance] at h
  cases hfind : getApiConfig w k with
  | none => rw [hfind] at h; simp at h
  | some user =>
      rw [hfind] at h
      injection h with h1
      rw [← h1]

theorem handleStep_concurrent (recur : World → Request → String → HandleOut)
    (env : DispatchEnv) (now : Timestamp) (w : World) (r : Request)
    (key : String) (ck : String)
    (hrec : ∀ w' r' k', rget (recur w' r' k').world.redis (.concurrent ck) =
      rget w'.redis (.concurrent ck)) :
    rget (handleStep recur env now w r key).world.redis (.concurrent ck) =
      rget w.redis (.concurrent ck) := by
  simp only [handleStep]
  repeat' split
  any_goals rfl
  any_goals (simp only [checkRateLimits_concurrent])
  any_goals (rw [hrec]; simp only [checkRateLimits_concurrent])
  all_goals (rename_i hded; rw [deductBalance_redis _ _ _ _ hded]; simp only [checkRateLimits_concurrent])


/-- C1. The pipeline never writes the concurrency gauge: for every fuel
bound, world, request and credential, after `handle_request` completes (by
any outcome) the value of every `concurrent:{credential}` counter is
exactly what it was before — no increment happens at admission and no
release happens on any terminal path, because no such operations exist in
the source. -/
theorem handleRequest_concurrency_untouched (env : DispatchEnv) (now : Timestamp) :
    ∀ (fuel : ℕ) (w : World) (r : Request) (key ck : String),
      rget (handleRequest env now fuel w r key).world.redis (.concurrent ck) =
        rget w.redis (.concurrent ck) := by
  intro fuel
  induction fuel with
  | zero => intro w r key ck; rfl
  | succ n ih =>
      intro w r key ck
      simp only [handleRequest]
      split
      · exact handleStep_concurrent _ env now w r key ck
          (fun w' r' k' => ih w' r' k' ck)
      · exact handleStep_concurrent _ env now w r key ck
          (fun w' r' k' => ih w' r' k' ck)

/-- C2. At the public `POST /v1/chat/completions` surface, spec scenario 2
(`requests_per_minute = 1`, two identical requests in the same minute): the
first call succeeds, but the second is answered with status 500 — carrying
the stringified inner exception "429: Rate limit exceeded (per minute)" —
not with 429, because `create_chat_completion` catches every exception from
`handle_request` (HTTPExceptions included) and re-raises
`HTTPException(500, str(e))`. -/
theorem chatCompletions_rate_limited_surfaces_as_500 :
    (createChatCompletion dispatchOk testNow 10 limWorld limReq "sk-lim").1 =
      .ok okResponse ∧
    (createChatCompletion dispatchOk testNow 10 limWorld1 limReq "sk-lim").1 =
      .error ⟨500, "429: Rate limit exceeded (per minute)"⟩ := by
  refine ⟨by decide, by decide⟩


theorem mongoAll_keys_doc (keys : List String) (c : Capabilities) :
    mongoAll (keys.map BsonVal.bstr) (bsonOfCaps c) = false := by
  cases keys with
  | nil => rfl
  | cons k rest =>
      cases rest with
      | nil => rfl
      | cons k2 r2 => rfl

theorem findLowerTierModel_none (w : World) (lvl : ℤ) (caps : Capabilities) :
    findLowerTierModel w lvl caps = none := by
  have hf : w.models.filter (fun m =>
      decide (m.capability_level < lvl) &&
        mongoAll ((trueCapKeys caps).map BsonVal.bstr) (bsonOfCaps m.capabilities) &&
        m.status == "active") = [] := by
    rw [List.filter_eq_nil_iff]
    intro m _
    simp [mongoAll_keys_doc]
  simp only [findLowerTierModel, hf]
  rfl

theorem handleStep_subs_zero (recur : World → Request → String → HandleOut)
    (env : DispatchEnv) (now : Timestamp) (w : World) (r : Request) (key : String) :
    (handleStep recur env now w r key).subs = 0 := by
  simp only [handleStep]
  repeat' split
  any_goals rfl
  rename_i lt hlt
  rw [findLowerTierModel_none] at hlt
  exact Option.noConfusion hlt

/-- C3 (amended). No model substitution ever occurs: `find_lower_tier_model`
filters `capabilities` with `$all`, but `$all` matches array elements (or
scalar equality for a one-element list), never the keys of the boolean
subdocument every model document stores under `capabilities`, so the
lookup returns `None` for every catalogue, level and requirement, and
every `handle_request` call performs zero substitutions. The claimed bound
of at most one substitution holds vacuously, while the claimed
substitute-and-recurse step is unreachable: an insufficient balance with
fallback enabled always terminates with
`HTTPException(402, "Insufficient balance and no lower tier model
available")`. -/
theorem fallback_never_substitutes :
    (∀ (w : World) (lvl : ℤ) (caps : Capabilities),
        findLowerTierModel w lvl caps = none) ∧
    (∀ (env : DispatchEnv) (now : Timestamp) (fuel : ℕ) (w : World)
        (r : Request) (key : String),
        (handleRequest env now fuel w r key).subs = 0) := by
  refine ⟨findLowerTierModel_none, ?_⟩
  intro env now fuel w r key
  cases fuel with
  | zero => rfl
  | succ n =>
      simp only [handleRequest]
      split
      · exact handleStep_subs_zero _ env now w r key
      · exact handleStep_subs_zero _ env now w r key

/-- C3 (counterexample). Balance 2 with fallback enabled against active
models at capability levels 3, 2 and 1 whose estimates are 12, 6 and 1.2:
the claim says the pipeline substitutes `request.model` and recurses
exactly once more, but the `$all` query of `find_lower_tier_model` cannot
match the subdocument-shaped `capabilities` field, so the lookup returns
`None`, no substitution happens, and the call raises 402 "Insufficient
balance and no lower tier model available" — even though an active model
of strictly lower capability level that the balance can afford is in the
catalogue. -/
theorem handleRequest_zero_substitutions :
    fallCred.retry_config.fallback_to_lower_tier = true ∧
    tierModel "model-b" 2 5 ∈ fallWorld.models ∧
    (tierModel "model-b" 2 5).capability_level <
      (tierModel "model-a" 3 10).capability_level ∧
    (tierModel "model-b" 2 5).status = "active" ∧
    (handleRequest dispatchOk testNow 10 fallWorld fallReq "sk-fall").result =
      .error (.http 402 "Insufficient balance and no lower tier model available") ∧
    (handleRequest dispatchOk testNow 10 fallWorld fallReq "sk-fall").subs = 0 ∧
    (handleRequest dispatchOk testNow 10 fallWorld fallReq "sk-fall").req.model =
      "model-a" := by
  refine ⟨by decide, by decide, by decide, by decide, by decide, by decide, by decide⟩

end ApiForward
